import Mathlib

/-!
Shallow embedding of the pycoin script-engine excerpt: the opcode handlers of
`pycoin/tx/script/intops.py`, the instruction-table construction of
`pycoin/coins/bitcoin/VM.py`, and the fork-identified signature hash of
`pycoin/coins/bcash/SolutionChecker.py`.

Stack items are byte strings, represented as `List Nat` with each entry `< 256`.
The data stack is held top-first: Python's list (append/pop at the end) is
mirrored here with the head of the list as the top of the stack, so Python's
`stack[-v-1]` is index `v` from the head.
-/

namespace Pycoin

/-- Symbolic script error codes (the `errno` module of the excerpt; the module
itself is outside the excerpt, so the enumeration is modelled from the spec's
closed list of codes, including the underflow code the spec requires). -/
inductive Errno
  | BAD_OPCODE
  | VERIFY
  | EQUALVERIFY
  | UNKNOWN_ERROR
  | INVALID_STACK_OPERATION
deriving DecidableEq, Repr

/-- Failure channel of a handler: a structured `ScriptError` (message, optional
symbolic code, and a payload such as the offending opcode byte and the program
counter), or a raw host exception that escapes the ScriptError channel (such as
Python's `ZeroDivisionError` from an unguarded division). -/
inductive VMErr
  | script (msg : String) (code : Option Errno) (info : List Nat)
  | hostError (name : String)
deriving DecidableEq, Repr

instance {ε α : Type} [DecidableEq ε] [DecidableEq α] : DecidableEq (Except ε α) :=
  fun a b =>
    match a, b with
    | .ok x, .ok y => if h : x = y then .isTrue (by rw [h]) else .isFalse (by simp [h])
    | .error x, .error y => if h : x = y then .isTrue (by rw [h]) else .isFalse (by simp [h])
    | .ok _, .error _ => .isFalse (by simp)
    | .error _, .ok _ => .isFalse (by simp)

/-- Modelled from the spec: the minimal-data bit of the execution flags
(`VERIFY_MINIMALDATA` of the `flags` module, which is outside the excerpt).
Only its role as a designated bit matters, not its numeric value. -/
def VERIFY_MINIMALDATA : Nat := 32

/-- The visible state of the stack machine: the data stack (top-first), the
execution flags, and the program counter. -/
structure VMState where
  stack : List (List Nat)
  flags : Nat
  pc : Nat
deriving DecidableEq, Repr

/-- Python's `vm.flags & VERIFY_MINIMALDATA` used as a truthy value: minimal
encoding is required exactly when the designated bit is set. -/
def requireMinimal (st : VMState) : Bool := st.flags &&& VERIFY_MINIMALDATA ≠ 0

/-- Modelled from the spec: the data stack reports underflow as a structured
Script Error (the stack object lives in `BaseVM`, outside the excerpt; the spec
fixes that pops and reads below the stack base are fatal, reported errors). -/
def stackUnderflowErr : VMErr := .script "stack underflow" (some .INVALID_STACK_OPERATION) []

/-- Error raised by `pop_check_bounds` when an operand is longer than 4 bytes. -/
def overflowErr : VMErr := .script "overflow in binop" (some .UNKNOWN_ERROR) []

/-- Modelled from the spec: the numeric codec's failure for a non-minimal
encoding when minimality is required. -/
def nonMinimalErr : VMErr := .script "non-minimally encoded" (some .UNKNOWN_ERROR) []

/-- Modelled from the spec: the failure of the non-negative decode on a
negative operand (`PICK`/`ROLL`/byte-slice counts must be non-negative). -/
def negativeValueErr : VMErr := .script "negative value" (some .UNKNOWN_ERROR) []

/-- Python's `ZeroDivisionError`: a host exception, not a ScriptError. -/
def zeroDivisionErr : VMErr := .hostError "ZeroDivisionError"

/-- Python `vm.stack.pop()` (top-first representation: pop the head). -/
def stackPop (st : VMState) : Except VMErr (List Nat × VMState) :=
  match st.stack with
  | [] => .error stackUnderflowErr
  | v :: rest => .ok (v, { st with stack := rest })

/-- Python `vm.stack.append(v)` (top-first representation: push at the head). -/
def stackPush (v : List Nat) (st : VMState) : VMState :=
  { st with stack := v :: st.stack }

/-- Python `vm.stack[-n-1]`: the item at depth `n` from the top. -/
def stackGet (n : Nat) (st : VMState) : Except VMErr (List Nat) :=
  match st.stack[n]? with
  | none => .error stackUnderflowErr
  | some v => .ok v

/-- Python `vm.stack.pop(-n-1)`: remove and return the item at depth `n`. -/
def stackPopAt (n : Nat) (st : VMState) : Except VMErr (List Nat × VMState) :=
  match st.stack[n]? with
  | none => .error stackUnderflowErr
  | some v => .ok (v, { st with stack := st.stack.eraseIdx n })

/-- Fuel-driven worker for `natToLE`; `fuel ≥ n` makes the fuel irrelevant. -/
def natToLEAux : Nat → Nat → List Nat
  | 0, _ => []
  | _ + 1, 0 => []
  | fuel + 1, n + 1 => ((n + 1) % 256) :: natToLEAux fuel ((n + 1) / 256)

/-- Little-endian base-256 digits of a natural number, no trailing zero digit. -/
def natToLE (n : Nat) : List Nat := natToLEAux n n

theorem natToLEAux_zero (f : Nat) : natToLEAux f 0 = [] := by
  cases f <;> rfl

theorem natToLEAux_irrel : ∀ (f1 : Nat) (f2 n : Nat), n ≤ f1 → n ≤ f2 →
    natToLEAux f1 n = natToLEAux f2 n := by
  intro f1
  induction f1 with
  | zero =>
    intro f2 n h1 _
    have : n = 0 := Nat.le_zero.mp h1
    subst this
    rw [natToLEAux_zero, natToLEAux_zero]
  | succ g IH =>
    intro f2 n h1 h2
    match n, f2 with
    | 0, f2 => rw [natToLEAux_zero, natToLEAux_zero]
    | m + 1, f2 + 1 =>
      show ((m + 1) % 256) :: natToLEAux g ((m + 1) / 256) =
        ((m + 1) % 256) :: natToLEAux f2 ((m + 1) / 256)
      have hd : (m + 1) / 256 < m + 1 := Nat.div_lt_self (Nat.succ_pos m) (by omega)
      exact congrArg _ (IH f2 ((m + 1) / 256) (by omega) (by omega))

/-- Unfolding equation for `natToLE`. -/
theorem natToLE_eq (n : Nat) :
    natToLE n = if n = 0 then [] else (n % 256) :: natToLE (n / 256) := by
  match n with
  | 0 => rfl
  | m + 1 =>
    show ((m + 1) % 256) :: natToLEAux m ((m + 1) / 256) = _
    rw [if_neg (Nat.succ_ne_zero m)]
    have hd : (m + 1) / 256 < m + 1 := Nat.div_lt_self (Nat.succ_pos m) (by omega)
    rw [natToLEAux_irrel m ((m + 1) / 256) ((m + 1) / 256) (by omega) (le_refl _)]
    rfl

/-- Value of a little-endian base-256 digit list. -/
def decodeMagLE : List Nat → Nat
  | [] => 0
  | a :: rest => a + 256 * decodeMagLE rest

/-- Place the sign bit into the most significant (last) byte of a magnitude:
if its high bit is free the sign is folded into it, otherwise an extra
`0x00`/`0x80` byte is appended. -/
def attachSign (neg : Bool) : List Nat → List Nat
  | [] => []
  | [d] => if 128 ≤ d then [d, if neg then 128 else 0] else [d + if neg then 128 else 0]
  | a :: rest => a :: attachSign neg rest

/-- Modelled from the spec: `IntStreamer.int_to_script_bytes` (the codec module
is outside the excerpt) — the minimal sign-magnitude little-endian encoding of
an integer; zero encodes as the empty byte string. -/
def int_to_script_bytes (v : Int) : List Nat :=
  attachSign (decide (v < 0)) (natToLE v.natAbs)

/-- Magnitude and sign of a sign-magnitude little-endian byte string: the high
bit of the last byte is the sign, the rest is the magnitude. -/
def decodeSM : List Nat → Nat × Bool
  | [] => (0, false)
  | [d] => (d % 128, decide (128 ≤ d))
  | a :: rest => ((decodeSM rest).1 * 256 + a, (decodeSM rest).2)

/-- Minimality check of a sign-magnitude encoding: a byte string is non-minimal
exactly when its last byte carries no payload (`0x00` or `0x80`) and either it
is the only byte or the previous byte's high bit is free. -/
def isMinimalEncoding : List Nat → Bool
  | [] => true
  | [d] => decide (d % 128 ≠ 0)
  | [d2, d] => decide (¬ (d % 128 = 0 ∧ d2 < 128))
  | _ :: rest => isMinimalEncoding rest

/-- Signed value of a magnitude-and-sign pair. -/
def smToInt (p : Nat × Bool) : Int := if p.2 then -(p.1 : Int) else (p.1 : Int)

/-- Modelled from the spec: `IntStreamer.int_from_script_bytes` — decode a
sign-magnitude little-endian byte string; the empty string always decodes to 0,
and when minimality is required a non-minimal encoding is a reported failure. -/
def int_from_script_bytes (s : List Nat) (require_minimal : Bool) : Except VMErr Int :=
  if s = [] then .ok 0
  else if require_minimal && !(isMinimalEncoding s) then .error nonMinimalErr
  else .ok (smToInt (decodeSM s))

/-- Modelled from the spec: `vm.nonnegative_int_from_script_bytes` — decode,
then fail if the value is negative. -/
def nonnegative_int_from_script_bytes (s : List Nat) (require_minimal : Bool) :
    Except VMErr Int := do
  let v ← int_from_script_bytes s require_minimal
  if v < 0 then .error negativeValueErr else .ok v

/-- Modelled from the spec: `vm.bool_to_script_bytes` — true is the single byte
`0x01`, false is the empty item. -/
def bool_to_script_bytes (b : Bool) : List Nat := if b then [1] else []

/-- Modelled from the spec: `vm.bool_from_script_bytes` — any non-zero byte
makes the item true, except that a sole `0x80` sign bit in the last byte
(negative zero) still reads as false. -/
def bool_from_script_bytes (s : List Nat) : Bool :=
  match s with
  | [] => false
  | _ => s.dropLast.any (fun b => b ≠ 0) || decide (s.getLastD 0 ≠ 0 ∧ s.getLastD 0 ≠ 128)

/-- Embedding of `do_OP_PICK`: pop a non-negative count `v`, then push a copy
of `vm.stack[-v-1]`. -/
def do_OP_PICK (st : VMState) : Except VMErr VMState := do
  let (vB, st1) ← stackPop st
  let v ← nonnegative_int_from_script_bytes vB (requireMinimal st)
  let item ← stackGet v.toNat st1
  .ok (stackPush item st1)

/-- Embedding of `do_OP_ROLL`: pop a non-negative count `v`, then move
`vm.stack.pop(-v-1)` to the top. -/
def do_OP_ROLL (st : VMState) : Except VMErr VMState := do
  let (vB, st1) ← stackPop st
  let v ← nonnegative_int_from_script_bytes vB (requireMinimal st)
  let (item, st2) ← stackPopAt v.toNat st1
  .ok (stackPush item st2)

/-- Embedding of `do_OP_SUBSTR`: pop `pos`, pop `length`, pop the target item,
push `item[length : length + pos]`. -/
def do_OP_SUBSTR (st : VMState) : Except VMErr VMState := do
  let (posB, st1) ← stackPop st
  let pos ← nonnegative_int_from_script_bytes posB (requireMinimal st)
  let (lenB, st2) ← stackPop st1
  let length ← nonnegative_int_from_script_bytes lenB (requireMinimal st)
  let (item, st3) ← stackPop st2
  .ok (stackPush ((item.drop length.toNat).take pos.toNat) st3)

/-- Embedding of `do_OP_LEFT`: pop `pos`, pop the target item, push
`item[:pos]`. -/
def do_OP_LEFT (st : VMState) : Except VMErr VMState := do
  let (posB, st1) ← stackPop st
  let pos ← nonnegative_int_from_script_bytes posB (requireMinimal st)
  let (item, st2) ← stackPop st1
  .ok (stackPush (item.take pos.toNat) st2)

/-- Embedding of `do_OP_RIGHT`: pop `pos`; if `pos > 0` push the popped item's
last `pos` bytes (`item[-pos:]`), otherwise discard the popped item and push
the empty item. -/
def do_OP_RIGHT (st : VMState) : Except VMErr VMState := do
  let (posB, st1) ← stackPop st
  let pos ← nonnegative_int_from_script_bytes posB (requireMinimal st)
  if 0 < pos then do
    let (item, st2) ← stackPop st1
    .ok (stackPush (item.drop (item.length - pos.toNat)) st2)
  else do
    let (_, st2) ← stackPop st1
    .ok (stackPush [] st2)

/-- Embedding of `pop_check_bounds`: pop an item, fail with the overflow error
if it is longer than 4 bytes, otherwise decode it honoring the minimal flag. -/
def pop_check_bounds (st : VMState) : Except VMErr (Int × VMState) := do
  let (v, st1) ← stackPop st
  if 4 < v.length then .error overflowErr
  else do
    let n ← int_from_script_bytes v (requireMinimal st)
    .ok (n, st1)

/-- Embedding of `make_bin_op`: pop `v1` then `v2` via `pop_check_bounds` and
push `int_to_script_bytes (binop v2 v1)`; the operation itself may raise a host
exception (division by zero, negative shift count). -/
def make_bin_op (binop : Int → Int → Except VMErr Int) (st : VMState) :
    Except VMErr VMState := do
  let (v1, st1) ← pop_check_bounds st
  let (v2, st2) ← pop_check_bounds st1
  let r ← binop v2 v1
  .ok (stackPush (int_to_script_bytes r) st2)

/-- Embedding of `make_bool_bin_op`: as `make_bin_op` but the result is pushed
boolean-encoded. -/
def make_bool_bin_op (binop : Int → Int → Bool) (st : VMState) :
    Except VMErr VMState := do
  let (v1, st1) ← pop_check_bounds st
  let (v2, st2) ← pop_check_bounds st1
  .ok (stackPush (bool_to_script_bytes (binop v2 v1)) st2)

def do_OP_ADD : VMState → Except VMErr VMState :=
  make_bin_op (fun x y => .ok (x + y))

def do_OP_SUB : VMState → Except VMErr VMState :=
  make_bin_op (fun x y => .ok (x - y))

def do_OP_MUL : VMState → Except VMErr VMState :=
  make_bin_op (fun x y => .ok (x * y))

/-- Python `x // y`: floor division; raises `ZeroDivisionError` when `y = 0`. -/
def do_OP_DIV : VMState → Except VMErr VMState :=
  make_bin_op (fun x y => if y = 0 then .error zeroDivisionErr else .ok (x.fdiv y))

/-- Python `x % y`: floor modulo; raises `ZeroDivisionError` when `y = 0`. -/
def do_OP_MOD : VMState → Except VMErr VMState :=
  make_bin_op (fun x y => if y = 0 then .error zeroDivisionErr else .ok (x.fmod y))

/-- Python `x << y`; raises `ValueError` on a negative shift count. -/
def do_OP_LSHIFT : VMState → Except VMErr VMState :=
  make_bin_op (fun x y => if y < 0 then .error (.hostError "ValueError") else .ok (x * 2 ^ y.toNat))

/-- Python `x >> y` (arithmetic shift, i.e. floor division by `2 ^ y`). -/
def do_OP_RSHIFT : VMState → Except VMErr VMState :=
  make_bin_op (fun x y => if y < 0 then .error (.hostError "ValueError") else .ok (x.fdiv (2 ^ y.toNat)))

def do_OP_BOOLAND : VMState → Except VMErr VMState :=
  make_bool_bin_op (fun x y => decide (x ≠ 0 ∧ y ≠ 0))

def do_OP_BOOLOR : VMState → Except VMErr VMState :=
  make_bool_bin_op (fun x y => decide (x ≠ 0 ∨ y ≠ 0))

def do_OP_NUMEQUAL : VMState → Except VMErr VMState :=
  make_bool_bin_op (fun x y => decide (x = y))

def do_OP_NUMNOTEQUAL : VMState → Except VMErr VMState :=
  make_bool_bin_op (fun x y => decide (x ≠ y))

def do_OP_LESSTHAN : VMState → Except VMErr VMState :=
  make_bool_bin_op (fun x y => decide (x < y))

def do_OP_GREATERTHAN : VMState → Except VMErr VMState :=
  make_bool_bin_op (fun x y => decide (x > y))

def do_OP_LESSTHANOREQUAL : VMState → Except VMErr VMState :=
  make_bool_bin_op (fun x y => decide (x ≤ y))

def do_OP_GREATERTHANOREQUAL : VMState → Except VMErr VMState :=
  make_bool_bin_op (fun x y => decide (x ≥ y))

def do_OP_MIN : VMState → Except VMErr VMState :=
  make_bin_op (fun x y => .ok (min x y))

def do_OP_MAX : VMState → Except VMErr VMState :=
  make_bin_op (fun x y => .ok (max x y))

/-- Embedding of `do_OP_WITHIN`: pop three operands (plain decode, no 4-byte
bound) giving `v3`, `v2`, `v1` in pop order, and push the boolean encoding of
`v2 <= v1 < v3`. -/
def do_OP_WITHIN (st : VMState) : Except VMErr VMState := do
  let (b3, st1) ← stackPop st
  let v3 ← int_from_script_bytes b3 (requireMinimal st)
  let (b2, st2) ← stackPop st1
  let v2 ← int_from_script_bytes b2 (requireMinimal st)
  let (b1, st3) ← stackPop st2
  let v1 ← int_from_script_bytes b1 (requireMinimal st)
  .ok (stackPush (bool_to_script_bytes (decide (v2 ≤ v1 ∧ v1 < v3))) st3)

/-- Embedding of `make_unary_num_op`: pop one bounds-checked operand, push the
minimally encoded result of the unary function. -/
def make_unary_num_op (unary_f : Int → Int) (st : VMState) : Except VMErr VMState := do
  let (v, st1) ← pop_check_bounds st
  .ok (stackPush (int_to_script_bytes (unary_f v)) st1)

def do_OP_1ADD : VMState → Except VMErr VMState := make_unary_num_op (fun x => x + 1)

def do_OP_1SUB : VMState → Except VMErr VMState := make_unary_num_op (fun x => x - 1)

def do_OP_2MUL : VMState → Except VMErr VMState := make_unary_num_op (fun x => x * 2)

def do_OP_2DIV : VMState → Except VMErr VMState := make_unary_num_op (fun x => x.fdiv 2)

def do_OP_NEGATE : VMState → Except VMErr VMState := make_unary_num_op (fun x => -x)

def do_OP_ABS : VMState → Except VMErr VMState := make_unary_num_op (fun x => |x|)

/-- Embedding of `do_OP_NOT`: pop one bounds-checked operand and push the
boolean encoding of its logical negation. -/
def do_OP_NOT (st : VMState) : Except VMErr VMState := do
  let (v, st1) ← pop_check_bounds st
  .ok (stackPush (bool_to_script_bytes (decide (v = 0))) st1)

/-- An opcode handler: a state transformer that may fail. -/
def Handler : Type := VMState → Except VMErr VMState

/-- Embedding of `_make_bad_instruction` of `bitcoin/VM.py`: a handler that
fails with `BAD_OPCODE`, carrying the offending opcode byte and the program
counter as its payload. -/
def _make_bad_instruction (v : Nat) : Handler :=
  fun st => .error (.script "invalid instruction" (some .BAD_OPCODE) [v, st.pc])

/-- Embedding of `_no_op` of `bitcoin/VM.py`: leaves the state unchanged. -/
def _no_op : Handler := fun st => .ok st

/-- Embedding of `_make_instruction_lookup` of `bitcoin/VM.py`. The data-push
opcode set (`BitcoinScriptCodec.data_opcodes`), the harvested handler registry
(`_collect_opcodes` over the handler modules) and the chain's name-to-byte
list (`opcodes.OPCODE_LIST`) live outside the excerpt and are parameters:
every slot starts as a bad-instruction handler, data-push slots are then set
to the no-op, and finally each `(name, byte)` pair whose name is in the
registry installs the registered handler at its byte. -/
def _make_instruction_lookup (data_opcodes : List Nat)
    (opcode_lookups : String → Option Handler)
    (opcode_pairs : List (String × Nat)) : List Handler :=
  let base := (List.range 256).map _make_bad_instruction
  let withData := data_opcodes.foldl (fun tbl i => tbl.set i _no_op) base
  opcode_pairs.foldl (fun tbl p =>
    match opcode_lookups p.1 with
    | some h => tbl.set p.2 h
    | none => tbl) withData

/-- The handler a registered `(name, byte)` pair installs at slot `v`, if any:
the last pair for byte `v` whose name resolves in the registry wins (later
installs overwrite earlier ones). -/
def installedHandler (opcode_lookups : String → Option Handler) :
    List (String × Nat) → Nat → Option Handler
  | [], _ => none
  | p :: rest, v =>
    match installedHandler opcode_lookups rest v with
    | some h => some h
    | none =>
      match opcode_lookups p.1 with
      | some h => if p.2 = v then some h else none
      | none => none

/-- The fork-identifier bit of BCash hash types (`bcash/SolutionChecker.py`). -/
def SIGHASH_FORKID : Nat := 0x40

/-- Embedding of `BCashSolutionChecker.signature_hash`: fail with a (bare)
ScriptError unless the fork-identifier bit is set in the hash type, otherwise
delegate to `signature_for_hash_type_segwit` with the hash type unchanged.
The delegate is inherited from `BitcoinSolutionChecker` (outside the excerpt)
and is a parameter, applied to the checker `self` of an arbitrary type. -/
def signature_hash {α β : Type} (signature_for_hash_type_segwit : α → List Nat → Nat → Nat → β)
    (self : α) (tx_out_script : List Nat) (unsigned_txs_out_idx : Nat) (hash_type : Nat) :
    Except VMErr β :=
  if hash_type &&& SIGHASH_FORKID ≠ SIGHASH_FORKID then
    .error (.script "" none [])
  else
    .ok (signature_for_hash_type_segwit self tx_out_script unsigned_txs_out_idx hash_type)

theorem attachSign_ne_nil (neg : Bool) (l : List Nat) (h : l ≠ []) :
    attachSign neg l ≠ [] := by
  match l with
  | [d] =>
    show (if 128 ≤ d then [d, if neg then 128 else 0] else [d + if neg then 128 else 0]) ≠ []
    split <;> simp
  | a :: b :: t => simp [attachSign]

theorem decodeSM_cons (a : Nat) (t : List Nat) (h : t ≠ []) :
    decodeSM (a :: t) = ((decodeSM t).1 * 256 + a, (decodeSM t).2) := by
  match t with
  | b :: t' => rfl

theorem isMinimal_cons (a : Nat) (t : List Nat) (ht : t ≠ [])
    (h : isMinimalEncoding t = true) : isMinimalEncoding (a :: t) = true := by
  match t with
  | [d] =>
    simp only [isMinimalEncoding, decide_eq_true_eq] at h ⊢
    omega
  | b :: c :: t' => exact h

theorem attachSign_natToLE (n : Nat) (hn : n ≠ 0) (neg : Bool) :
    attachSign neg (natToLE n) ≠ [] ∧
    isMinimalEncoding (attachSign neg (natToLE n)) = true ∧
    decodeSM (attachSign neg (natToLE n)) = (n, neg) := by
  induction n using Nat.strong_induction_on with
  | _ n IH =>
    rw [natToLE_eq, if_neg hn]
    by_cases h2 : n / 256 = 0
    · have hlt : n < 256 := by omega
      have hmod : n % 256 = n := Nat.mod_eq_of_lt hlt
      rw [h2, natToLE_eq, if_pos rfl, hmod]
      by_cases h128 : 128 ≤ n
      · show attachSign neg [n] ≠ [] ∧ _ ∧ _
        have ha : attachSign neg [n] = [n, if neg then 128 else 0] := by
          show (if 128 ≤ n then _ else _) = _
          rw [if_pos h128]
        rw [ha]
        refine ⟨by simp, ?_, ?_⟩
        · show decide (¬ ((if neg then 128 else 0) % 128 = 0 ∧ n < 128)) = true
          simp only [decide_eq_true_eq]
          omega
        · show ((decodeSM [if neg then 128 else 0]).1 * 256 + n,
            (decodeSM [if neg then 128 else 0]).2) = (n, neg)
          cases neg <;> simp [decodeSM]
      · show attachSign neg [n] ≠ [] ∧ _ ∧ _
        have ha : attachSign neg [n] = [n + if neg then 128 else 0] := by
          show (if 128 ≤ n then _ else _) = _
          rw [if_neg h128]
        rw [ha]
        refine ⟨by simp, ?_, ?_⟩
        · show decide ((n + if neg then 128 else 0) % 128 ≠ 0) = true
          simp only [decide_eq_true_eq]
          cases neg <;> simp <;> omega
        · show ((n + if neg then 128 else 0) % 128,
            decide (128 ≤ n + if neg then 128 else 0)) = (n, neg)
          cases neg <;> simp <;> omega
    · have hrec := IH (n / 256) (Nat.div_lt_self (Nat.pos_of_ne_zero hn) (by omega)) h2
      have hne : natToLE (n / 256) ≠ [] := by
        rw [natToLE_eq, if_neg h2]
        simp
      have hcons : attachSign neg ((n % 256) :: natToLE (n / 256)) =
          (n % 256) :: attachSign neg (natToLE (n / 256)) := by
        cases hm : natToLE (n / 256) with
        | nil => exact absurd hm hne
        | cons b t' => rfl
      rw [hcons]
      refine ⟨by simp, isMinimal_cons _ _ hrec.1 hrec.2.1, ?_⟩
      rw [decodeSM_cons _ _ hrec.1, hrec.2.2]
      have : n / 256 * 256 + n % 256 = n := by omega
      rw [this]

/-- The encoder always produces a minimal encoding: decoding it back under the
strict minimal-encoding flag succeeds and returns the original integer. -/
theorem int_roundtrip (v : Int) (rm : Bool) :
    int_from_script_bytes (int_to_script_bytes v) rm = .ok v := by
  by_cases hv : v = 0
  · subst hv
    show int_from_script_bytes (attachSign false (natToLE 0)) rm = .ok 0
    rfl
  · have hn : v.natAbs ≠ 0 := by
      intro h
      exact hv (Int.natAbs_eq_zero.mp h)
    have h := attachSign_natToLE v.natAbs hn (decide (v < 0))
    unfold int_from_script_bytes int_to_script_bytes
    rw [if_neg h.1, h.2.1, h.2.2]
    have hval : smToInt (v.natAbs, decide (v < 0)) = v := by
      unfold smToInt
      by_cases hneg : v < 0
      · rw [if_pos (by simp [hneg])]
        show -((v.natAbs : Int)) = v
        omega
      · rw [if_neg (by simp [hneg])]
        show ((v.natAbs : Int)) = v
        omega
    rw [hval]
    simp

theorem fmod_bounds_neg (a b : Int) (hb : b < 0) : b < a.fmod b ∧ a.fmod b ≤ 0 := by
  match b with
  | .ofNat n =>
    rw [Int.ofNat_eq_coe] at hb
    omega
  | .negSucc n =>
    match a with
    | .ofNat 0 =>
      have h0 : (Int.ofNat 0).fmod (Int.negSucc n) = 0 := rfl
      rw [h0]
      exact ⟨hb, le_refl 0⟩
    | .ofNat (m + 1) =>
      show Int.negSucc n < Int.subNatNat (m % (n + 1)) n ∧ Int.subNatNat (m % (n + 1)) n ≤ 0
      rw [Int.subNatNat_eq_coe]
      have h1 : m % (n + 1) < n + 1 := Nat.mod_lt _ (Nat.succ_pos n)
      rw [Int.negSucc_eq]
      constructor <;> omega
    | .negSucc m =>
      show Int.negSucc n < -(((m + 1) % (n + 1) : Nat) : Int) ∧
        -(((m + 1) % (n + 1) : Nat) : Int) ≤ 0
      have h1 : (m + 1) % (n + 1) < n + 1 := Nat.mod_lt _ (Nat.succ_pos n)
      rw [Int.negSucc_eq]
      constructor <;> omega

/-- C1: the fork-identified (BCash) signature-hash fails with a ScriptError
whenever the fork-identifier bit `0x40` is absent from the hash type, for every
checker and transaction context, spent script and input index; when the bit is
set it returns the segwit-style digest computed with the hash type passed
through unchanged. -/
theorem bcash_signature_hash_forkid {α β : Type}
    (segwit : α → List Nat → Nat → Nat → β) (self : α)
    (tx_out_script : List Nat) (idx hash_type : Nat) :
    (hash_type &&& SIGHASH_FORKID ≠ SIGHASH_FORKID →
      signature_hash segwit self tx_out_script idx hash_type = .error (.script "" none [])) ∧
    (hash_type &&& SIGHASH_FORKID = SIGHASH_FORKID →
      signature_hash segwit self tx_out_script idx hash_type =
        .ok (segwit self tx_out_script idx hash_type)) := by
  constructor
  · intro h
    unfold signature_hash
    rw [if_pos h]
  · intro h
    unfold signature_hash
    rw [if_neg (by simp [h])]

/-- Witness for C1 at concrete inputs: hash type `0x01` (fork bit absent)
fails, hash type `0x41` (fork bit present) returns the delegate's digest of
the unchanged hash type. -/
theorem bcash_signature_hash_forkid_witness :
    signature_hash (fun (_ : Unit) (_ : List Nat) (i ht : Nat) => i + ht) () [1, 2] 3 1 =
      .error (.script "" none []) ∧
    signature_hash (fun (_ : Unit) (_ : List Nat) (i ht : Nat) => i + ht) () [1, 2] 3 65 =
      .ok 68 :=
  ⟨(bcash_signature_hash_forkid _ () [1, 2] 3 1).1 (by decide),
   (bcash_signature_hash_forkid _ () [1, 2] 3 65).2 (by decide)⟩

theorem pop_check_bounds_ok (st : VMState) (v : List Nat) (rest : List (List Nat)) (n : Int)
    (hst : st.stack = v :: rest) (hlen : v.length ≤ 4)
    (hdec : int_from_script_bytes v (requireMinimal st) = .ok n) :
    pop_check_bounds st = .ok (n, { st with stack := rest }) := by
  obtain ⟨stk, fl, pcv⟩ := st
  change stk = _ at hst
  subst hst
  simp only [requireMinimal] at hdec
  simp only [pop_check_bounds, stackPop, bind, Except.bind, requireMinimal, hdec,
    if_neg (by omega : ¬ 4 < v.length)]

theorem pop_check_bounds_overflow (st : VMState) (v : List Nat) (rest : List (List Nat))
    (hst : st.stack = v :: rest) (hlen : 4 < v.length) :
    pop_check_bounds st = .error overflowErr := by
  obtain ⟨stk, fl, pcv⟩ := st
  change stk = _ at hst
  subst hst
  simp only [pop_check_bounds, stackPop, bind, Except.bind, if_pos hlen]

theorem pop_check_bounds_nonminimal (st : VMState) (v : List Nat) (rest : List (List Nat))
    (hst : st.stack = v :: rest) (hlen : v.length ≤ 4) (hrm : requireMinimal st = true)
    (hne : v ≠ []) (hmin : isMinimalEncoding v = false) :
    pop_check_bounds st = .error nonMinimalErr := by
  obtain ⟨stk, fl, pcv⟩ := st
  change stk = _ at hst
  subst hst
  simp only [requireMinimal] at hrm
  simp only [pop_check_bounds, stackPop, bind, Except.bind, requireMinimal,
    if_neg (by omega : ¬ 4 < v.length), int_from_script_bytes, if_neg hne, hrm, hmin]
  rfl

theorem make_bin_op_ok (f : Int → Int → Except VMErr Int) (st : VMState)
    (v1B v2B : List Nat) (rest : List (List Nat)) (n1 n2 r : Int)
    (hst : st.stack = v1B :: v2B :: rest) (hl1 : v1B.length ≤ 4) (hl2 : v2B.length ≤ 4)
    (hd1 : int_from_script_bytes v1B (requireMinimal st) = .ok n1)
    (hd2 : int_from_script_bytes v2B (requireMinimal st) = .ok n2)
    (hf : f n2 n1 = .ok r) :
    make_bin_op f st = .ok { st with stack := int_to_script_bytes r :: rest } := by
  have e1 := pop_check_bounds_ok st v1B (v2B :: rest) n1 hst hl1 hd1
  have e2 := pop_check_bounds_ok { st with stack := v2B :: rest } v2B rest n2 rfl hl2 hd2
  simp only [make_bin_op, e1, e2, bind, Except.bind, hf, stackPush]

theorem make_bin_op_op_err (f : Int → Int → Except VMErr Int) (st : VMState)
    (v1B v2B : List Nat) (rest : List (List Nat)) (n1 n2 : Int) (e : VMErr)
    (hst : st.stack = v1B :: v2B :: rest) (hl1 : v1B.length ≤ 4) (hl2 : v2B.length ≤ 4)
    (hd1 : int_from_script_bytes v1B (requireMinimal st) = .ok n1)
    (hd2 : int_from_script_bytes v2B (requireMinimal st) = .ok n2)
    (hf : f n2 n1 = .error e) :
    make_bin_op f st = .error e := by
  have e1 := pop_check_bounds_ok st v1B (v2B :: rest) n1 hst hl1 hd1
  have e2 := pop_check_bounds_ok { st with stack := v2B :: rest } v2B rest n2 rfl hl2 hd2
  simp only [make_bin_op, e1, e2, bind, Except.bind, hf]

theorem make_bin_op_overflow1 (f : Int → Int → Except VMErr Int) (st : VMState)
    (v : List Nat) (rest : List (List Nat))
    (hst : st.stack = v :: rest) (hlen : 4 < v.length) :
    make_bin_op f st = .error overflowErr := by
  simp only [make_bin_op, pop_check_bounds_overflow st v rest hst hlen, bind, Except.bind]

theorem make_bin_op_overflow2 (f : Int → Int → Except VMErr Int) (st : VMState)
    (v1B wB : List Nat) (rest : List (List Nat)) (n1 : Int)
    (hst : st.stack = v1B :: wB :: rest) (hl1 : v1B.length ≤ 4)
    (hd1 : int_from_script_bytes v1B (requireMinimal st) = .ok n1)
    (hlen : 4 < wB.length) :
    make_bin_op f st = .error overflowErr := by
  have e1 := pop_check_bounds_ok st v1B (wB :: rest) n1 hst hl1 hd1
  have e2 := pop_check_bounds_overflow { st with stack := wB :: rest } wB rest rfl hlen
  simp only [make_bin_op, e1, e2, bind, Except.bind]

theorem make_bin_op_nonminimal1 (f : Int → Int → Except VMErr Int) (st : VMState)
    (v : List Nat) (rest : List (List Nat))
    (hst : st.stack = v :: rest) (hlen : v.length ≤ 4) (hrm : requireMinimal st = true)
    (hne : v ≠ []) (hmin : isMinimalEncoding v = false) :
    make_bin_op f st = .error nonMinimalErr := by
  simp only [make_bin_op, pop_check_bounds_nonminimal st v rest hst hlen hrm hne hmin,
    bind, Except.bind]

theorem make_bool_bin_op_ok (f : Int → Int → Bool) (st : VMState)
    (v1B v2B : List Nat) (rest : List (List Nat)) (n1 n2 : Int)
    (hst : st.stack = v1B :: v2B :: rest) (hl1 : v1B.length ≤ 4) (hl2 : v2B.length ≤ 4)
    (hd1 : int_from_script_bytes v1B (requireMinimal st) = .ok n1)
    (hd2 : int_from_script_bytes v2B (requireMinimal st) = .ok n2) :
    make_bool_bin_op f st = .ok { st with stack := bool_to_script_bytes (f n2 n1) :: rest } := by
  have e1 := pop_check_bounds_ok st v1B (v2B :: rest) n1 hst hl1 hd1
  have e2 := pop_check_bounds_ok { st with stack := v2B :: rest } v2B rest n2 rfl hl2 hd2
  simp only [make_bool_bin_op, e1, e2, bind, Except.bind, stackPush]

theorem make_bool_bin_op_overflow1 (f : Int → Int → Bool) (st : VMState)
    (v : List Nat) (rest : List (List Nat))
    (hst : st.stack = v :: rest) (hlen : 4 < v.length) :
    make_bool_bin_op f st = .error overflowErr := by
  simp only [make_bool_bin_op, pop_check_bounds_overflow st v rest hst hlen, bind, Except.bind]

theorem make_bool_bin_op_overflow2 (f : Int → Int → Bool) (st : VMState)
    (v1B wB : List Nat) (rest : List (List Nat)) (n1 : Int)
    (hst : st.stack = v1B :: wB :: rest) (hl1 : v1B.length ≤ 4)
    (hd1 : int_from_script_bytes v1B (requireMinimal st) = .ok n1)
    (hlen : 4 < wB.length) :
    make_bool_bin_op f st = .error overflowErr := by
  have e1 := pop_check_bounds_ok st v1B (wB :: rest) n1 hst hl1 hd1
  have e2 := pop_check_bounds_overflow { st with stack := wB :: rest } wB rest rfl hlen
  simp only [make_bool_bin_op, e1, e2, bind, Except.bind]

theorem make_bool_bin_op_nonminimal1 (f : Int → Int → Bool) (st : VMState)
    (v : List Nat) (rest : List (List Nat))
    (hst : st.stack = v :: rest) (hlen : v.length ≤ 4) (hrm : requireMinimal st = true)
    (hne : v ≠ []) (hmin : isMinimalEncoding v = false) :
    make_bool_bin_op f st = .error nonMinimalErr := by
  simp only [make_bool_bin_op, pop_check_bounds_nonminimal st v rest hst hlen hrm hne hmin,
    bind, Except.bind]

theorem make_unary_num_op_ok (f : Int → Int) (st : VMState)
    (v : List Nat) (rest : List (List Nat)) (n : Int)
    (hst : st.stack = v :: rest) (hlen : v.length ≤ 4)
    (hdec : int_from_script_bytes v (requireMinimal st) = .ok n) :
    make_unary_num_op f st = .ok { st with stack := int_to_script_bytes (f n) :: rest } := by
  simp only [make_unary_num_op, pop_check_bounds_ok st v rest n hst hlen hdec, bind,
    Except.bind, stackPush]

theorem make_unary_num_op_overflow (f : Int → Int) (st : VMState)
    (v : List Nat) (rest : List (List Nat))
    (hst : st.stack = v :: rest) (hlen : 4 < v.length) :
    make_unary_num_op f st = .error overflowErr := by
  simp only [make_unary_num_op, pop_check_bounds_overflow st v rest hst hlen, bind, Except.bind]

theorem make_unary_num_op_nonminimal (f : Int → Int) (st : VMState)
    (v : List Nat) (rest : List (List Nat))
    (hst : st.stack = v :: rest) (hlen : v.length ≤ 4) (hrm : requireMinimal st = true)
    (hne : v ≠ []) (hmin : isMinimalEncoding v = false) :
    make_unary_num_op f st = .error nonMinimalErr := by
  simp only [make_unary_num_op, pop_check_bounds_nonminimal st v rest hst hlen hrm hne hmin,
    bind, Except.bind]

theorem do_OP_NOT_overflow (st : VMState) (v : List Nat) (rest : List (List Nat))
    (hst : st.stack = v :: rest) (hlen : 4 < v.length) :
    do_OP_NOT st = .error overflowErr := by
  simp only [do_OP_NOT, pop_check_bounds_overflow st v rest hst hlen, bind, Except.bind]

theorem do_OP_NOT_nonminimal (st : VMState) (v : List Nat) (rest : List (List Nat))
    (hst : st.stack = v :: rest) (hlen : v.length ≤ 4) (hrm : requireMinimal st = true)
    (hne : v ≠ []) (hmin : isMinimalEncoding v = false) :
    do_OP_NOT st = .error nonMinimalErr := by
  simp only [do_OP_NOT, pop_check_bounds_nonminimal st v rest hst hlen hrm hne hmin,
    bind, Except.bind]

theorem nonneg_ok (s : List Nat) (rm : Bool) (n : Int)
    (h : nonnegative_int_from_script_bytes s rm = .ok n) :
    0 ≤ n ∧ int_from_script_bytes s rm = .ok n := by
  unfold nonnegative_int_from_script_bytes at h
  cases hi : int_from_script_bytes s rm with
  | error e =>
    rw [hi] at h
    simp only [bind, Except.bind] at h
    cases h
  | ok m =>
    rw [hi] at h
    simp only [bind, Except.bind] at h
    by_cases hm : m < 0
    · rw [if_pos hm] at h
      cases h
    · rw [if_neg hm] at h
      cases h
      exact ⟨by omega, rfl⟩

/-- C3: `WITHIN` pops `hi` (top of stack), then `lo`, then `x`, and pushes the
boolean encoding of `lo ≤ x < hi`; at the boundaries `x = lo` (with
`lo < hi`) gives true and `x = hi` gives false. -/
theorem do_OP_WITHIN_spec (st : VMState) (hiB loB xB : List Nat) (rest : List (List Nat))
    (hi lo x : Int)
    (hst : st.stack = hiB :: loB :: xB :: rest)
    (hhi : int_from_script_bytes hiB (requireMinimal st) = .ok hi)
    (hlo : int_from_script_bytes loB (requireMinimal st) = .ok lo)
    (hx : int_from_script_bytes xB (requireMinimal st) = .ok x) :
    do_OP_WITHIN st =
      .ok { st with stack := bool_to_script_bytes (decide (lo ≤ x ∧ x < hi)) :: rest } ∧
    (x = lo → lo < hi →
      do_OP_WITHIN st = .ok { st with stack := bool_to_script_bytes true :: rest }) ∧
    (x = hi →
      do_OP_WITHIN st = .ok { st with stack := bool_to_script_bytes false :: rest }) := by
  have hmain : do_OP_WITHIN st =
      .ok { st with stack := bool_to_script_bytes (decide (lo ≤ x ∧ x < hi)) :: rest } := by
    obtain ⟨stk, fl, pcv⟩ := st
    change stk = _ at hst
    subst hst
    simp only [requireMinimal] at hhi hlo hx
    simp only [do_OP_WITHIN, stackPop, requireMinimal, hhi, hlo, hx, bind, Except.bind,
      stackPush]
  refine ⟨hmain, ?_, ?_⟩
  · intro hxlo hlh
    rw [hmain]
    have hd : decide (lo ≤ x ∧ x < hi) = true := by
      subst hxlo
      simp only [decide_eq_true_eq]
      exact ⟨le_refl x, hlh⟩
    rw [hd]
  · intro hxhi
    rw [hmain]
    have hd : decide (lo ≤ x ∧ x < hi) = false := by
      subst hxhi
      simp only [decide_eq_false_iff_not]
      intro hcon
      exact lt_irrefl x hcon.2
    rw [hd]

/-- Witness for C3 at a concrete stack (doctest of `do_OP_WITHIN`): the stack
`hi = 3, lo = 1, x = 2` pushes true; also exercises both boundary clauses via
`x = lo` and `x = hi` stacks. -/
theorem do_OP_WITHIN_spec_witness :
    do_OP_WITHIN ⟨[[3], [1], [2]], 0, 0⟩ =
      .ok ⟨[bool_to_script_bytes (decide ((1 : Int) ≤ 2 ∧ (2 : Int) < 3))], 0, 0⟩ ∧
    do_OP_WITHIN ⟨[[3], [1], [1]], 0, 0⟩ = .ok ⟨[bool_to_script_bytes true], 0, 0⟩ ∧
    do_OP_WITHIN ⟨[[3], [1], [3]], 0, 0⟩ = .ok ⟨[bool_to_script_bytes false], 0, 0⟩ :=
  ⟨(do_OP_WITHIN_spec ⟨[[3], [1], [2]], 0, 0⟩ [3] [1] [2] [] 3 1 2 rfl (by decide) (by decide)
      (by decide)).1,
   (do_OP_WITHIN_spec ⟨[[3], [1], [1]], 0, 0⟩ [3] [1] [1] [] 3 1 1 rfl (by decide) (by decide)
      (by decide)).2.1 rfl (by decide),
   (do_OP_WITHIN_spec ⟨[[3], [1], [3]], 0, 0⟩ [3] [1] [3] [] 3 1 3 rfl (by decide) (by decide)
      (by decide)).2.2 rfl⟩

theorem int_to_script_bytes_minimal (v : Int) :
    isMinimalEncoding (int_to_script_bytes v) = true := by
  by_cases hv : v = 0
  · subst hv
    rfl
  · exact (attachSign_natToLE v.natAbs (fun h => hv (Int.natAbs_eq_zero.mp h))
      (decide (v < 0))).2.1

/-- C4 (amended): every binary arithmetic handler (`ADD, SUB, MUL, DIV, MOD,
LSHIFT, RSHIFT, MIN, MAX`) computes `a OP b` for stack `..., a, b` (`b` on
top: the second-popped operand is the left argument); `DIV`/`MOD` are floor
division and floor modulo (rounding toward negative infinity, characterized
by the division identity and the sign of the remainder); `LSHIFT`/`RSHIFT`
shift by a non-negative count, and on a negative count raise Python's
`ValueError`, a host exception, instead of pushing a result; every pushed
result goes through the encoder, whose output is always minimal. -/
theorem binary_arith_spec (st : VMState) (bB aB : List Nat) (rest : List (List Nat))
    (a b : Int)
    (hst : st.stack = bB :: aB :: rest)
    (hlb : bB.length ≤ 4) (hla : aB.length ≤ 4)
    (hdb : int_from_script_bytes bB (requireMinimal st) = .ok b)
    (hda : int_from_script_bytes aB (requireMinimal st) = .ok a) :
    do_OP_ADD st = .ok { st with stack := int_to_script_bytes (a + b) :: rest } ∧
    do_OP_SUB st = .ok { st with stack := int_to_script_bytes (a - b) :: rest } ∧
    do_OP_MUL st = .ok { st with stack := int_to_script_bytes (a * b) :: rest } ∧
    do_OP_MIN st = .ok { st with stack := int_to_script_bytes (min a b) :: rest } ∧
    do_OP_MAX st = .ok { st with stack := int_to_script_bytes (max a b) :: rest } ∧
    (0 ≤ b →
      do_OP_LSHIFT st =
        .ok { st with stack := int_to_script_bytes (a * 2 ^ b.toNat) :: rest } ∧
      do_OP_RSHIFT st =
        .ok { st with stack := int_to_script_bytes (a.fdiv (2 ^ b.toNat)) :: rest }) ∧
    (b < 0 →
      do_OP_LSHIFT st = .error (.hostError "ValueError") ∧
      do_OP_RSHIFT st = .error (.hostError "ValueError")) ∧
    (b ≠ 0 →
      do_OP_DIV st = .ok { st with stack := int_to_script_bytes (a.fdiv b) :: rest } ∧
      do_OP_MOD st = .ok { st with stack := int_to_script_bytes (a.fmod b) :: rest } ∧
      b * (a.fdiv b) + a.fmod b = a ∧
      (0 < b → 0 ≤ a.fmod b ∧ a.fmod b < b) ∧
      (b < 0 → b < a.fmod b ∧ a.fmod b ≤ 0)) ∧
    (∀ r : Int, isMinimalEncoding (int_to_script_bytes r) = true ∧
      int_from_script_bytes (int_to_script_bytes r) true = .ok r) := by
  refine ⟨make_bin_op_ok _ st bB aB rest b a (a + b) hst hlb hla hdb hda rfl,
    make_bin_op_ok _ st bB aB rest b a (a - b) hst hlb hla hdb hda rfl,
    make_bin_op_ok _ st bB aB rest b a (a * b) hst hlb hla hdb hda rfl,
    make_bin_op_ok _ st bB aB rest b a (min a b) hst hlb hla hdb hda rfl,
    make_bin_op_ok _ st bB aB rest b a (max a b) hst hlb hla hdb hda rfl,
    ?_, ?_, ?_, fun r => ⟨int_to_script_bytes_minimal r, int_roundtrip r true⟩⟩
  · intro hb
    exact ⟨make_bin_op_ok _ st bB aB rest b a (a * 2 ^ b.toNat) hst hlb hla hdb hda (by
        rw [if_neg (not_lt.mpr hb)]),
      make_bin_op_ok _ st bB aB rest b a (a.fdiv (2 ^ b.toNat)) hst hlb hla hdb hda (by
        rw [if_neg (not_lt.mpr hb)])⟩
  · intro hb
    exact ⟨make_bin_op_op_err _ st bB aB rest b a (.hostError "ValueError") hst hlb hla hdb
        hda (by rw [if_pos hb]),
      make_bin_op_op_err _ st bB aB rest b a (.hostError "ValueError") hst hlb hla hdb
        hda (by rw [if_pos hb])⟩
  · intro hb
    refine ⟨make_bin_op_ok _ st bB aB rest b a (a.fdiv b) hst hlb hla hdb hda (by
        simp only [if_neg hb]),
      make_bin_op_ok _ st bB aB rest b a (a.fmod b) hst hlb hla hdb hda (by
        simp only [if_neg hb]),
      Int.fdiv_add_fmod a b, ?_, ?_⟩
    · intro hpos
      exact ⟨Int.fmod_nonneg' a hpos, Int.fmod_lt_of_pos a hpos⟩
    · intro hneg
      exact fmod_bounds_neg a b hneg

/-- Counterexample for C4 as stated: with the in-bounds decodable operands
`a = 1, b = -1` on the stack, `LSHIFT` and `RSHIFT` do not push any result
at all — they raise Python's `ValueError` (negative shift count), a host
exception — so not each binary arithmetic handler computes and pushes
`a OP b` for every pair of in-bounds decodable operands. -/
theorem lshift_rshift_negative_counterexample :
    ([129] : List Nat).length ≤ 4 ∧
    int_from_script_bytes [129] false = .ok (-1) ∧
    int_from_script_bytes [1] false = .ok 1 ∧
    do_OP_LSHIFT ⟨[[129], [1]], 0, 0⟩ = .error (.hostError "ValueError") ∧
    do_OP_RSHIFT ⟨[[129], [1]], 0, 0⟩ = .error (.hostError "ValueError") := by
  refine ⟨by decide, by decide, by decide, by decide, by decide⟩

/-- Witness for C4 at the concrete stack `a = -7, b = 2`: `ADD` pushes the
encoding of `-5`, `DIV` pushes the encoding of `-4` (floor, where truncation
toward zero would give `-3`), `MOD` pushes the encoding of `1`, `LSHIFT`
pushes the encoding of `-28` and `RSHIFT` the encoding of `-2`. -/
theorem binary_arith_spec_witness :
    do_OP_ADD ⟨[[2], [135]], 0, 0⟩ = .ok ⟨[[133]], 0, 0⟩ ∧
    do_OP_DIV ⟨[[2], [135]], 0, 0⟩ = .ok ⟨[[132]], 0, 0⟩ ∧
    do_OP_MOD ⟨[[2], [135]], 0, 0⟩ = .ok ⟨[[1]], 0, 0⟩ ∧
    do_OP_LSHIFT ⟨[[2], [135]], 0, 0⟩ = .ok ⟨[[156]], 0, 0⟩ ∧
    do_OP_RSHIFT ⟨[[2], [135]], 0, 0⟩ = .ok ⟨[[130]], 0, 0⟩ := by
  have h := binary_arith_spec ⟨[[2], [135]], 0, 0⟩ [2] [135] [] (-7) 2 rfl (by decide)
    (by decide) (by decide) (by decide)
  have hsh := h.2.2.2.2.2.1 (by decide)
  have hdm := h.2.2.2.2.2.2.2.1 (by decide)
  exact ⟨h.1, hdm.1, hdm.2.1, hsh.1, hsh.2⟩

/-- C10: the `DIV`/`MOD` handlers have no guard on the divisor (the
first-popped operand): a zero divisor raises Python's `ZeroDivisionError`,
which is a host exception outside the structured ScriptError channel, and the
handlers produce a value exactly when the divisor is nonzero. -/
theorem div_mod_zero_divisor (st : VMState) (bB aB : List Nat) (rest : List (List Nat))
    (a b : Int)
    (hst : st.stack = bB :: aB :: rest)
    (hlb : bB.length ≤ 4) (hla : aB.length ≤ 4)
    (hdb : int_from_script_bytes bB (requireMinimal st) = .ok b)
    (hda : int_from_script_bytes aB (requireMinimal st) = .ok a) :
    (b = 0 →
      do_OP_DIV st = .error (.hostError "ZeroDivisionError") ∧
      do_OP_MOD st = .error (.hostError "ZeroDivisionError")) ∧
    (b ≠ 0 →
      do_OP_DIV st = .ok { st with stack := int_to_script_bytes (a.fdiv b) :: rest } ∧
      do_OP_MOD st = .ok { st with stack := int_to_script_bytes (a.fmod b) :: rest }) := by
  constructor
  · intro hb
    subst hb
    exact ⟨make_bin_op_op_err _ st bB aB rest 0 a zeroDivisionErr hst hlb hla hdb hda rfl,
      make_bin_op_op_err _ st bB aB rest 0 a zeroDivisionErr hst hlb hla hdb hda rfl⟩
  · intro hb
    exact ⟨make_bin_op_ok _ st bB aB rest b a (a.fdiv b) hst hlb hla hdb hda (by
        simp only [if_neg hb]),
      make_bin_op_ok _ st bB aB rest b a (a.fmod b) hst hlb hla hdb hda (by
        simp only [if_neg hb])⟩

/-- Witness for C10: with `a = -7` on the stack and a zero divisor on top,
`DIV` and `MOD` raise the host `ZeroDivisionError`. -/
theorem div_mod_zero_divisor_witness :
    do_OP_DIV ⟨[[], [135]], 0, 0⟩ = .error (.hostError "ZeroDivisionError") ∧
    do_OP_MOD ⟨[[], [135]], 0, 0⟩ = .error (.hostError "ZeroDivisionError") :=
  (div_mod_zero_divisor ⟨[[], [135]], 0, 0⟩ [] [135] [] (-7) 0 rfl (by decide) (by decide)
    (by decide) (by decide)).1 rfl

/-- C5: `SUBSTR` pops `pos` (top), then `length`, then the target item, and
pushes the slice `item[length : length + pos]`; a slice whose offsets lie
outside the item clamps to the empty item instead of failing. -/
theorem do_OP_SUBSTR_spec (st : VMState) (posB lenB item : List Nat)
    (rest : List (List Nat)) (pos length : Int)
    (hst : st.stack = posB :: lenB :: item :: rest)
    (hp : nonnegative_int_from_script_bytes posB (requireMinimal st) = .ok pos)
    (hl : nonnegative_int_from_script_bytes lenB (requireMinimal st) = .ok length) :
    do_OP_SUBSTR st =
      .ok { st with stack := ((item.drop length.toNat).take pos.toNat) :: rest } ∧
    (item.length ≤ length.toNat → (item.drop length.toNat).take pos.toNat = []) := by
  constructor
  · obtain ⟨stk, fl, pcv⟩ := st
    change stk = _ at hst
    subst hst
    simp only [requireMinimal] at hp hl
    simp only [do_OP_SUBSTR, stackPop, requireMinimal, hp, hl, bind, Except.bind, stackPush]
  · intro h
    rw [List.drop_eq_nil_of_le h, List.take_nil]

/-- Witness for C5 (doctest of `do_OP_SUBSTR`): stack `[b'abcdef', 3, 2]`
yields `[b'de']`; a second application with `length = 9` beyond the item
clamps to the empty item. -/
theorem do_OP_SUBSTR_spec_witness :
    do_OP_SUBSTR ⟨[[2], [3], [97, 98, 99, 100, 101, 102]], 0, 0⟩ =
      .ok ⟨[[100, 101]], 0, 0⟩ ∧
    do_OP_SUBSTR ⟨[[2], [9], [97, 98, 99, 100, 101, 102]], 0, 0⟩ = .ok ⟨[[]], 0, 0⟩ :=
  ⟨(do_OP_SUBSTR_spec ⟨[[2], [3], [97, 98, 99, 100, 101, 102]], 0, 0⟩ [2] [3]
      [97, 98, 99, 100, 101, 102] [] 2 3 rfl (by decide) (by decide)).1,
   (do_OP_SUBSTR_spec ⟨[[2], [9], [97, 98, 99, 100, 101, 102]], 0, 0⟩ [2] [9]
      [97, 98, 99, 100, 101, 102] [] 2 9 rfl (by decide) (by decide)).1⟩

/-- C7: when the popped count `n` equals or exceeds the depth of the remaining
stack, `PICK` and `ROLL` fail with the structured stack-underflow ScriptError
(not an unreported host exception and not a clamp). -/
theorem pick_roll_underflow (st : VMState) (nB : List Nat) (rest : List (List Nat)) (n : Int)
    (hst : st.stack = nB :: rest)
    (hdec : nonnegative_int_from_script_bytes nB (requireMinimal st) = .ok n)
    (hdepth : (rest.length : Int) ≤ n) :
    do_OP_PICK st = .error stackUnderflowErr ∧
    do_OP_ROLL st = .error stackUnderflowErr ∧
    stackUnderflowErr = .script "stack underflow" (some .INVALID_STACK_OPERATION) [] := by
  have hn : 0 ≤ n := (nonneg_ok nB (requireMinimal st) n hdec).1
  have hnone : rest[n.toNat]? = none := List.getElem?_eq_none (by omega)
  obtain ⟨stk, fl, pcv⟩ := st
  change stk = _ at hst
  subst hst
  simp only [requireMinimal] at hdec
  refine ⟨?_, ?_, rfl⟩
  · simp only [do_OP_PICK, stackPop, requireMinimal, hdec, bind, Except.bind, stackGet, hnone]
  · simp only [do_OP_ROLL, stackPop, requireMinimal, hdec, bind, Except.bind, stackPopAt, hnone]

/-- Witness for C7: a count of 2 on a remaining stack of depth 1 makes both
`PICK` and `ROLL` fail with the underflow ScriptError. -/
theorem pick_roll_underflow_witness :
    do_OP_PICK ⟨[[2], [97]], 0, 0⟩ = .error stackUnderflowErr ∧
    do_OP_ROLL ⟨[[2], [97]], 0, 0⟩ = .error stackUnderflowErr := by
  have h := pick_roll_underflow ⟨[[2], [97]], 0, 0⟩ [2] [[97]] 2 rfl (by decide) (by decide)
  exact ⟨h.1, h.2.1⟩

/-- C8: `RIGHT` pops a non-negative `pos` then the target item; with
`pos > 0` it pushes the item's last `pos` bytes, and with `pos = 0` it
discards the popped item and pushes the empty item. -/
theorem do_OP_RIGHT_spec (st : VMState) (posB item : List Nat) (rest : List (List Nat))
    (pos : Int)
    (hst : st.stack = posB :: item :: rest)
    (hp : nonnegative_int_from_script_bytes posB (requireMinimal st) = .ok pos) :
    (0 < pos →
      do_OP_RIGHT st = .ok { st with stack := item.drop (item.length - pos.toNat) :: rest }) ∧
    (pos = 0 → do_OP_RIGHT st = .ok { st with stack := [] :: rest }) := by
  obtain ⟨stk, fl, pcv⟩ := st
  change stk = _ at hst
  subst hst
  simp only [requireMinimal] at hp
  constructor
  · intro hpos
    simp only [do_OP_RIGHT, stackPop, requireMinimal, hp, bind, Except.bind, stackPush,
      if_pos hpos]
  · intro hzero
    subst hzero
    simp only [do_OP_RIGHT, stackPop, requireMinimal, hp, bind, Except.bind, stackPush,
      if_neg (lt_irrefl (0 : Int))]

/-- Witness for C8 (concrete scenario C of the spec): stack
`[b'abcdef', 0x00]` becomes `[b'']`; stack `[b'abcdef', 3]` becomes
`[b'def']`. -/
theorem do_OP_RIGHT_spec_witness :
    do_OP_RIGHT ⟨[[0], [97, 98, 99, 100, 101, 102]], 0, 0⟩ = .ok ⟨[[]], 0, 0⟩ ∧
    do_OP_RIGHT ⟨[[3], [97, 98, 99, 100, 101, 102]], 0, 0⟩ =
      .ok ⟨[[100, 101, 102]], 0, 0⟩ :=
  ⟨(do_OP_RIGHT_spec ⟨[[0], [97, 98, 99, 100, 101, 102]], 0, 0⟩ [0]
      [97, 98, 99, 100, 101, 102] [] 0 rfl (by decide)).2 rfl,
   (do_OP_RIGHT_spec ⟨[[3], [97, 98, 99, 100, 101, 102]], 0, 0⟩ [3]
      [97, 98, 99, 100, 101, 102] [] 3 rfl (by decide)).1 (by decide)⟩

/-- C9: with a popped count of 0 and a non-empty remaining stack, `PICK`
duplicates the top of the remaining stack (a peek) leaving the total stack
size unchanged from before the operation, and `ROLL` leaves the remaining
stack exactly as it was. -/
theorem pick_roll_zero (st : VMState) (zB x : List Nat) (rest : List (List Nat))
    (hst : st.stack = zB :: x :: rest)
    (hdec : nonnegative_int_from_script_bytes zB (requireMinimal st) = .ok 0) :
    do_OP_PICK st = .ok { st with stack := x :: x :: rest } ∧
    (x :: x :: rest).length = st.stack.length ∧
    do_OP_ROLL st = .ok { st with stack := x :: rest } := by
  obtain ⟨stk, fl, pcv⟩ := st
  change stk = _ at hst
  subst hst
  simp only [requireMinimal] at hdec
  refine ⟨?_, by simp, ?_⟩
  · simp only [do_OP_PICK, stackPop, requireMinimal, hdec, bind, Except.bind, stackGet,
      stackPush, Int.toNat_zero, List.getElem?_cons_zero]
  · simp only [do_OP_ROLL, stackPop, requireMinimal, hdec, bind, Except.bind, stackPopAt,
      stackPush, Int.toNat_zero, List.getElem?_cons_zero, List.eraseIdx_cons_zero]

/-- Witness for C9: on stack `[b'a', b'b', 0]` (top-first `[0], [98], [97]`),
`PICK` duplicates `b'b'` keeping the size at 3, `ROLL` leaves `[b'a', b'b']`. -/
theorem pick_roll_zero_witness :
    do_OP_PICK ⟨[[0], [98], [97]], 0, 0⟩ = .ok ⟨[[98], [98], [97]], 0, 0⟩ ∧
    do_OP_ROLL ⟨[[0], [98], [97]], 0, 0⟩ = .ok ⟨[[98], [97]], 0, 0⟩ := by
  have h := pick_roll_zero ⟨[[0], [98], [97]], 0, 0⟩ [0] [98] [[97]] rfl (by decide)
  exact ⟨h.1, h.2.2⟩

/-- C2 (amended): every numeric operand of the arithmetic and comparison
handlers built on `pop_check_bounds` — the binary ops `ADD, SUB, MUL, DIV,
MOD, LSHIFT, RSHIFT, MIN, MAX`, the comparison/boolean binary ops, the unary
ops and `NOT` — is popped via the bounds-checked decode, which fails with the
overflow error whenever the operand item is longer than 4 bytes (for the
first and for the second popped operand) and honors the minimal-encoding
flag; `WITHIN`, however, decodes its operands without the 4-byte bound and
succeeds on an over-long operand. -/
theorem numeric_group_bounds_spec
    (st : VMState) (vB : List Nat) (rest : List (List Nat))
    (st2 : VMState) (v1B wB : List Nat) (rest2 : List (List Nat)) (n1 : Int)
    (st3 : VMState) (mB : List Nat) (rest3 : List (List Nat))
    (st4 : VMState) (hiB loB xB : List Nat) (rest4 : List (List Nat)) (hi lo x : Int)
    (hst : st.stack = vB :: rest) (hlen : 4 < vB.length)
    (hst2 : st2.stack = v1B :: wB :: rest2) (hl1 : v1B.length ≤ 4)
    (hd1 : int_from_script_bytes v1B (requireMinimal st2) = .ok n1)
    (hlen2 : 4 < wB.length)
    (hst3 : st3.stack = mB :: rest3) (hl3 : mB.length ≤ 4)
    (hrm3 : requireMinimal st3 = true) (hne3 : mB ≠ [])
    (hmin3 : isMinimalEncoding mB = false)
    (hst4 : st4.stack = hiB :: loB :: xB :: rest4)
    (hhi : int_from_script_bytes hiB (requireMinimal st4) = .ok hi)
    (hlo : int_from_script_bytes loB (requireMinimal st4) = .ok lo)
    (hx : int_from_script_bytes xB (requireMinimal st4) = .ok x) :
    (do_OP_ADD st = .error overflowErr ∧
     do_OP_SUB st = .error overflowErr ∧
     do_OP_MUL st = .error overflowErr ∧
     do_OP_DIV st = .error overflowErr ∧
     do_OP_MOD st = .error overflowErr ∧
     do_OP_LSHIFT st = .error overflowErr ∧
     do_OP_RSHIFT st = .error overflowErr ∧
     do_OP_MIN st = .error overflowErr ∧
     do_OP_MAX st = .error overflowErr ∧
     do_OP_BOOLAND st = .error overflowErr ∧
     do_OP_BOOLOR st = .error overflowErr ∧
     do_OP_NUMEQUAL st = .error overflowErr ∧
     do_OP_NUMNOTEQUAL st = .error overflowErr ∧
     do_OP_LESSTHAN st = .error overflowErr ∧
     do_OP_GREATERTHAN st = .error overflowErr ∧
     do_OP_LESSTHANOREQUAL st = .error overflowErr ∧
     do_OP_GREATERTHANOREQUAL st = .error overflowErr ∧
     do_OP_1ADD st = .error overflowErr ∧
     do_OP_1SUB st = .error overflowErr ∧
     do_OP_2MUL st = .error overflowErr ∧
     do_OP_2DIV st = .error overflowErr ∧
     do_OP_NEGATE st = .error overflowErr ∧
     do_OP_ABS st = .error overflowErr ∧
     do_OP_NOT st = .error overflowErr) ∧
    (do_OP_ADD st2 = .error overflowErr ∧
     do_OP_SUB st2 = .error overflowErr ∧
     do_OP_MUL st2 = .error overflowErr ∧
     do_OP_DIV st2 = .error overflowErr ∧
     do_OP_MOD st2 = .error overflowErr ∧
     do_OP_LSHIFT st2 = .error overflowErr ∧
     do_OP_RSHIFT st2 = .error overflowErr ∧
     do_OP_MIN st2 = .error overflowErr ∧
     do_OP_MAX st2 = .error overflowErr ∧
     do_OP_BOOLAND st2 = .error overflowErr ∧
     do_OP_BOOLOR st2 = .error overflowErr ∧
     do_OP_NUMEQUAL st2 = .error overflowErr ∧
     do_OP_NUMNOTEQUAL st2 = .error overflowErr ∧
     do_OP_LESSTHAN st2 = .error overflowErr ∧
     do_OP_GREATERTHAN st2 = .error overflowErr ∧
     do_OP_LESSTHANOREQUAL st2 = .error overflowErr ∧
     do_OP_GREATERTHANOREQUAL st2 = .error overflowErr) ∧
    (do_OP_ADD st3 = .error nonMinimalErr ∧
     do_OP_SUB st3 = .error nonMinimalErr ∧
     do_OP_MUL st3 = .error nonMinimalErr ∧
     do_OP_DIV st3 = .error nonMinimalErr ∧
     do_OP_MOD st3 = .error nonMinimalErr ∧
     do_OP_LSHIFT st3 = .error nonMinimalErr ∧
     do_OP_RSHIFT st3 = .error nonMinimalErr ∧
     do_OP_MIN st3 = .error nonMinimalErr ∧
     do_OP_MAX st3 = .error nonMinimalErr ∧
     do_OP_BOOLAND st3 = .error nonMinimalErr ∧
     do_OP_BOOLOR st3 = .error nonMinimalErr ∧
     do_OP_NUMEQUAL st3 = .error nonMinimalErr ∧
     do_OP_NUMNOTEQUAL st3 = .error nonMinimalErr ∧
     do_OP_LESSTHAN st3 = .error nonMinimalErr ∧
     do_OP_GREATERTHAN st3 = .error nonMinimalErr ∧
     do_OP_LESSTHANOREQUAL st3 = .error nonMinimalErr ∧
     do_OP_GREATERTHANOREQUAL st3 = .error nonMinimalErr ∧
     do_OP_1ADD st3 = .error nonMinimalErr ∧
     do_OP_1SUB st3 = .error nonMinimalErr ∧
     do_OP_2MUL st3 = .error nonMinimalErr ∧
     do_OP_2DIV st3 = .error nonMinimalErr ∧
     do_OP_NEGATE st3 = .error nonMinimalErr ∧
     do_OP_ABS st3 = .error nonMinimalErr ∧
     do_OP_NOT st3 = .error nonMinimalErr) ∧
    do_OP_WITHIN st4 =
      .ok { st4 with stack := bool_to_script_bytes (decide (lo ≤ x ∧ x < hi)) :: rest4 } := by
  refine ⟨⟨make_bin_op_overflow1 _ st vB rest hst hlen,
    make_bin_op_overflow1 _ st vB rest hst hlen,
    make_bin_op_overflow1 _ st vB rest hst hlen,
    make_bin_op_overflow1 _ st vB rest hst hlen,
    make_bin_op_overflow1 _ st vB rest hst hlen,
    make_bin_op_overflow1 _ st vB rest hst hlen,
    make_bin_op_overflow1 _ st vB rest hst hlen,
    make_bin_op_overflow1 _ st vB rest hst hlen,
    make_bin_op_overflow1 _ st vB rest hst hlen,
    make_bool_bin_op_overflow1 _ st vB rest hst hlen,
    make_bool_bin_op_overflow1 _ st vB rest hst hlen,
    make_bool_bin_op_overflow1 _ st vB rest hst hlen,
    make_bool_bin_op_overflow1 _ st vB rest hst hlen,
    make_bool_bin_op_overflow1 _ st vB rest hst hlen,
    make_bool_bin_op_overflow1 _ st vB rest hst hlen,
    make_bool_bin_op_overflow1 _ st vB rest hst hlen,
    make_bool_bin_op_overflow1 _ st vB rest hst hlen,
    make_unary_num_op_overflow _ st vB rest hst hlen,
    make_unary_num_op_overflow _ st vB rest hst hlen,
    make_unary_num_op_overflow _ st vB rest hst hlen,
    make_unary_num_op_overflow _ st vB rest hst hlen,
    make_unary_num_op_overflow _ st vB rest hst hlen,
    make_unary_num_op_overflow _ st vB rest hst hlen,
    do_OP_NOT_overflow st vB rest hst hlen⟩,
    ⟨make_bin_op_overflow2 _ st2 v1B wB rest2 n1 hst2 hl1 hd1 hlen2,
    make_bin_op_overflow2 _ st2 v1B wB rest2 n1 hst2 hl1 hd1 hlen2,
    make_bin_op_overflow2 _ st2 v1B wB rest2 n1 hst2 hl1 hd1 hlen2,
    make_bin_op_overflow2 _ st2 v1B wB rest2 n1 hst2 hl1 hd1 hlen2,
    make_bin_op_overflow2 _ st2 v1B wB rest2 n1 hst2 hl1 hd1 hlen2,
    make_bin_op_overflow2 _ st2 v1B wB rest2 n1 hst2 hl1 hd1 hlen2,
    make_bin_op_overflow2 _ st2 v1B wB rest2 n1 hst2 hl1 hd1 hlen2,
    make_bin_op_overflow2 _ st2 v1B wB rest2 n1 hst2 hl1 hd1 hlen2,
    make_bin_op_overflow2 _ st2 v1B wB rest2 n1 hst2 hl1 hd1 hlen2,
    make_bool_bin_op_overflow2 _ st2 v1B wB rest2 n1 hst2 hl1 hd1 hlen2,
    make_bool_bin_op_overflow2 _ st2 v1B wB rest2 n1 hst2 hl1 hd1 hlen2,
    make_bool_bin_op_overflow2 _ st2 v1B wB rest2 n1 hst2 hl1 hd1 hlen2,
    make_bool_bin_op_overflow2 _ st2 v1B wB rest2 n1 hst2 hl1 hd1 hlen2,
    make_bool_bin_op_overflow2 _ st2 v1B wB rest2 n1 hst2 hl1 hd1 hlen2,
    make_bool_bin_op_overflow2 _ st2 v1B wB rest2 n1 hst2 hl1 hd1 hlen2,
    make_bool_bin_op_overflow2 _ st2 v1B wB rest2 n1 hst2 hl1 hd1 hlen2,
    make_bool_bin_op_overflow2 _ st2 v1B wB rest2 n1 hst2 hl1 hd1 hlen2⟩,
    ⟨make_bin_op_nonminimal1 _ st3 mB rest3 hst3 hl3 hrm3 hne3 hmin3,
    make_bin_op_nonminimal1 _ st3 mB rest3 hst3 hl3 hrm3 hne3 hmin3,
    make_bin_op_nonminimal1 _ st3 mB rest3 hst3 hl3 hrm3 hne3 hmin3,
    make_bin_op_nonminimal1 _ st3 mB rest3 hst3 hl3 hrm3 hne3 hmin3,
    make_bin_op_nonminimal1 _ st3 mB rest3 hst3 hl3 hrm3 hne3 hmin3,
    make_bin_op_nonminimal1 _ st3 mB rest3 hst3 hl3 hrm3 hne3 hmin3,
    make_bin_op_nonminimal1 _ st3 mB rest3 hst3 hl3 hrm3 hne3 hmin3,
    make_bin_op_nonminimal1 _ st3 mB rest3 hst3 hl3 hrm3 hne3 hmin3,
    make_bin_op_nonminimal1 _ st3 mB rest3 hst3 hl3 hrm3 hne3 hmin3,
    make_bool_bin_op_nonminimal1 _ st3 mB rest3 hst3 hl3 hrm3 hne3 hmin3,
    make_bool_bin_op_nonminimal1 _ st3 mB rest3 hst3 hl3 hrm3 hne3 hmin3,
    make_bool_bin_op_nonminimal1 _ st3 mB rest3 hst3 hl3 hrm3 hne3 hmin3,
    make_bool_bin_op_nonminimal1 _ st3 mB rest3 hst3 hl3 hrm3 hne3 hmin3,
    make_bool_bin_op_nonminimal1 _ st3 mB rest3 hst3 hl3 hrm3 hne3 hmin3,
    make_bool_bin_op_nonminimal1 _ st3 mB rest3 hst3 hl3 hrm3 hne3 hmin3,
    make_bool_bin_op_nonminimal1 _ st3 mB rest3 hst3 hl3 hrm3 hne3 hmin3,
    make_bool_bin_op_nonminimal1 _ st3 mB rest3 hst3 hl3 hrm3 hne3 hmin3,
    make_unary_num_op_nonminimal _ st3 mB rest3 hst3 hl3 hrm3 hne3 hmin3,
    make_unary_num_op_nonminimal _ st3 mB rest3 hst3 hl3 hrm3 hne3 hmin3,
    make_unary_num_op_nonminimal _ st3 mB rest3 hst3 hl3 hrm3 hne3 hmin3,
    make_unary_num_op_nonminimal _ st3 mB rest3 hst3 hl3 hrm3 hne3 hmin3,
    make_unary_num_op_nonminimal _ st3 mB rest3 hst3 hl3 hrm3 hne3 hmin3,
    make_unary_num_op_nonminimal _ st3 mB rest3 hst3 hl3 hrm3 hne3 hmin3,
    do_OP_NOT_nonminimal st3 mB rest3 hst3 hl3 hrm3 hne3 hmin3⟩, ?_⟩
  obtain ⟨stk, fl, pcv⟩ := st4
  change stk = _ at hst4
  subst hst4
  simp only [requireMinimal] at hhi hlo hx
  simp only [do_OP_WITHIN, stackPop, requireMinimal, hhi, hlo, hx, bind, Except.bind,
    stackPush]

/-- Counterexample for C2 as stated: `WITHIN` accepts a 5-byte first-popped
operand and succeeds instead of failing with the overflow error. -/
theorem numeric_group_bounds_counterexample :
    4 < ([2, 0, 0, 0, 0] : List Nat).length ∧
    do_OP_WITHIN ⟨[[2, 0, 0, 0, 0], [], []], 0, 0⟩ = .ok ⟨[[1]], 0, 0⟩ := by
  constructor
  · decide
  · decide

/-- Witness for C2 (amended), at concrete stacks: a 5-byte first operand and
a 5-byte second operand make `ADD` fail with the overflow error, a
non-minimal 2-byte operand under the minimal-data flag makes `ADD` fail with
the encoding error, and `WITHIN` succeeds on a 5-byte operand. -/
theorem numeric_group_bounds_spec_witness :
    do_OP_ADD ⟨[[1, 1, 1, 1, 1]], 0, 0⟩ = .error overflowErr ∧
    do_OP_ADD ⟨[[2], [1, 1, 1, 1, 1]], 0, 0⟩ = .error overflowErr ∧
    do_OP_ADD ⟨[[1, 0]], 32, 0⟩ = .error nonMinimalErr ∧
    do_OP_WITHIN ⟨[[1, 0, 0, 0, 0], [], []], 0, 0⟩ = .ok ⟨[[1]], 0, 0⟩ := by
  have h := numeric_group_bounds_spec
    ⟨[[1, 1, 1, 1, 1]], 0, 0⟩ [1, 1, 1, 1, 1] []
    ⟨[[2], [1, 1, 1, 1, 1]], 0, 0⟩ [2] [1, 1, 1, 1, 1] [] 2
    ⟨[[1, 0]], 32, 0⟩ [1, 0] []
    ⟨[[1, 0, 0, 0, 0], [], []], 0, 0⟩ [1, 0, 0, 0, 0] [] [] [] 1 0 0
    rfl (by decide)
    rfl (by decide) (by decide) (by decide)
    rfl (by decide) (by decide) (by decide) (by decide)
    rfl (by decide) (by decide) (by decide)
  exact ⟨h.1.1, h.2.1.1, h.2.2.1.1, h.2.2.2⟩

theorem dataFold_length (data : List Nat) (tbl : List Handler) :
    (data.foldl (fun t i => t.set i _no_op) tbl).length = tbl.length := by
  induction data generalizing tbl with
  | nil => rfl
  | cons d rest IH => rw [List.foldl_cons, IH, List.length_set]

theorem pairFold_length (lookups : String → Option Handler) (pairs : List (String × Nat))
    (tbl : List Handler) :
    (pairs.foldl (fun t p =>
      match lookups p.1 with
      | some h => t.set p.2 h
      | none => t) tbl).length = tbl.length := by
  induction pairs generalizing tbl with
  | nil => rfl
  | cons p rest IH =>
    rw [List.foldl_cons]
    cases hp : lookups p.1 with
    | some h =>
      simp only [hp]
      rw [IH, List.length_set]
    | none =>
      simp only [hp]
      rw [IH]

theorem dataFold_get (data : List Nat) (tbl : List Handler) (v : Nat) (hv : v < tbl.length) :
    (data.foldl (fun t i => t.set i _no_op) tbl)[v]? =
      if v ∈ data then some _no_op else tbl[v]? := by
  induction data generalizing tbl with
  | nil => simp
  | cons d rest IH =>
    rw [List.foldl_cons, IH (tbl.set d _no_op) (by rw [List.length_set]; exact hv)]
    by_cases hm : v ∈ rest
    · rw [if_pos hm, if_pos (List.mem_cons.mpr (Or.inr hm))]
    · rw [if_neg hm]
      by_cases hd : d = v
      · subst hd
        rw [List.getElem?_set_self hv, if_pos (List.mem_cons_self d rest)]
      · have hnm : ¬ v ∈ d :: rest := by
          simp only [List.mem_cons]
          rintro (h | h)
          · exact hd h.symm
          · exact hm h
        rw [List.getElem?_set_ne hd, if_neg hnm]

theorem pairFold_get (lookups : String → Option Handler) (pairs : List (String × Nat))
    (tbl : List Handler) (v : Nat) (hv : v < tbl.length) :
    (pairs.foldl (fun t p =>
      match lookups p.1 with
      | some h => t.set p.2 h
      | none => t) tbl)[v]? =
      match installedHandler lookups pairs v with
      | some h => some h
      | none => tbl[v]? := by
  induction pairs generalizing tbl with
  | nil => rfl
  | cons p rest IH =>
    rw [List.foldl_cons]
    cases hp : lookups p.1 with
    | none =>
      simp only [hp]
      rw [IH tbl hv]
      cases hi : installedHandler lookups rest v with
      | some h2 => simp [installedHandler, hi, hp]
      | none => simp [installedHandler, hi, hp]
    | some h =>
      simp only [hp]
      rw [IH (tbl.set p.2 h) (by rw [List.length_set]; exact hv)]
      cases hi : installedHandler lookups rest v with
      | some h2 => simp [installedHandler, hi, hp]
      | none =>
        simp only [installedHandler, hi, hp]
        by_cases hpv : p.2 = v
        · subst hpv
          rw [List.getElem?_set_self hv, if_pos rfl]
        · rw [List.getElem?_set_ne hpv, if_neg hpv]

theorem installedHandler_mem (lookups : String → Option Handler)
    (pairs : List (String × Nat)) (v : Nat) (h : Handler)
    (hi : installedHandler lookups pairs v = some h) :
    ∃ p, p ∈ pairs ∧ p.2 = v ∧ lookups p.1 = some h := by
  induction pairs with
  | nil => cases hi
  | cons p rest IH =>
    unfold installedHandler at hi
    split at hi
    next h2 heq =>
      cases hi
      obtain ⟨q, hq, hqv, hql⟩ := IH heq
      exact ⟨q, List.mem_cons_of_mem _ hq, hqv, hql⟩
    next =>
      split at hi
      next h2 hp =>
        by_cases hpv : p.2 = v
        · rw [if_pos hpv] at hi
          cases hi
          exact ⟨p, List.mem_cons_self p rest, hpv, hp⟩
        · rw [if_neg hpv] at hi
          cases hi
      next => cases hi

theorem base_table_get (v : Nat) (hv : v < 256) :
    ((List.range 256).map _make_bad_instruction)[v]? = some (_make_bad_instruction v) := by
  rw [List.getElem?_map, List.getElem?_range hv]
  rfl

/-- C6: the instruction lookup is a total 256-entry table; each slot holds the
handler installed by the last registered `(name, byte)` pair for that byte, a
no-op if the byte is a data-push opcode and no registered pair names it, and
otherwise the default bad-instruction handler, which fails with `BAD_OPCODE`
carrying the offending byte and the program counter; moreover any installed
handler comes from a pair present in the chain's opcode list whose name
resolves in the collected registry. -/
theorem instruction_lookup_spec (data_opcodes : List Nat)
    (opcode_lookups : String → Option Handler) (opcode_pairs : List (String × Nat))
    (v : Nat) (hv : v < 256) :
    (_make_instruction_lookup data_opcodes opcode_lookups opcode_pairs).length = 256 ∧
    (_make_instruction_lookup data_opcodes opcode_lookups opcode_pairs)[v]? =
      some (match installedHandler opcode_lookups opcode_pairs v with
        | some h => h
        | none => if v ∈ data_opcodes then _no_op else _make_bad_instruction v) ∧
    (∀ h, installedHandler opcode_lookups opcode_pairs v = some h →
      ∃ p, p ∈ opcode_pairs ∧ p.2 = v ∧ opcode_lookups p.1 = some h) ∧
    (∀ st, _make_bad_instruction v st =
      .error (.script "invalid instruction" (some .BAD_OPCODE) [v, st.pc])) := by
  have hbaselen : ((List.range 256).map _make_bad_instruction).length = 256 := by simp
  have hdatalen :
      (data_opcodes.foldl (fun t i => t.set i _no_op)
        ((List.range 256).map _make_bad_instruction)).length = 256 := by
    rw [dataFold_length, hbaselen]
  refine ⟨?_, ?_, fun h => installedHandler_mem opcode_lookups opcode_pairs v h,
    fun st => rfl⟩
  · simp only [_make_instruction_lookup]
    rw [pairFold_length, hdatalen]
  · simp only [_make_instruction_lookup]
    rw [pairFold_get opcode_lookups opcode_pairs _ v (by rw [hdatalen]; exact hv),
      dataFold_get data_opcodes _ v (by rw [hbaselen]; exact hv), base_table_get v hv]
    cases hi : installedHandler opcode_lookups opcode_pairs v with
    | some h => rfl
    | none =>
      by_cases hm : v ∈ data_opcodes
      · rw [if_pos hm, if_pos hm]
      · rw [if_neg hm, if_neg hm]

/-- Witness for C6 at a concrete table: one data-push byte (5), one registered
pair installing the no-op handler at byte 97, slot 97 resolves to the
installed handler, slot 5 to the no-op, any other slot (e.g. 255) to the
bad-instruction default. -/
theorem instruction_lookup_spec_witness :
    (_make_instruction_lookup [5]
      (fun n => if n = "OP_NOP" then some _no_op else none) [("OP_NOP", 97)]).length = 256 ∧
    (_make_instruction_lookup [5]
      (fun n => if n = "OP_NOP" then some _no_op else none) [("OP_NOP", 97)])[97]? =
      some (match installedHandler (fun n => if n = "OP_NOP" then some _no_op else none)
          [("OP_NOP", 97)] 97 with
        | some h => h
        | none => if 97 ∈ [5] then _no_op else _make_bad_instruction 97) ∧
    (_make_instruction_lookup [5]
      (fun n => if n = "OP_NOP" then some _no_op else none) [("OP_NOP", 97)])[5]? =
      some (match installedHandler (fun n => if n = "OP_NOP" then some _no_op else none)
          [("OP_NOP", 97)] 5 with
        | some h => h
        | none => if 5 ∈ [5] then _no_op else _make_bad_instruction 5) ∧
    (_make_instruction_lookup [5]
      (fun n => if n = "OP_NOP" then some _no_op else none) [("OP_NOP", 97)])[255]? =
      some (match installedHandler (fun n => if n = "OP_NOP" then some _no_op else none)
          [("OP_NOP", 97)] 255 with
        | some h => h
        | none => if 255 ∈ [5] then _no_op else _make_bad_instruction 255) :=
  ⟨(instruction_lookup_spec [5] (fun n => if n = "OP_NOP" then some _no_op else none)
      [("OP_NOP", 97)] 97 (by decide)).1,
   (instruction_lookup_spec [5] (fun n => if n = "OP_NOP" then some _no_op else none)
      [("OP_NOP", 97)] 97 (by decide)).2.1,
   (instruction_lookup_spec [5] (fun n => if n = "OP_NOP" then some _no_op else none)
      [("OP_NOP", 97)] 5 (by decide)).2.1,
   (instruction_lookup_spec [5] (fun n => if n = "OP_NOP" then some _no_op else none)
      [("OP_NOP", 97)] 255 (by decide)).2.1⟩

end Pycoin
